import Mathlib

/-!
Shallow embedding of the p2p-playground-lite daemon core, with proofs
checking the natural-language specification against the code.

Source files embedded here:
* `pkg/health/health.go` — `Checker.Check`, `Checker.StartMonitoring`
* `pkg/runtime` (current revision) — `Runtime.start`, `Runtime.Stop`,
  `Runtime.Restart` and the unhealthy callback installed by `start`
* `pkg/daemon/daemon.go` — `handleDeployRequest`, `receiveFile`,
  `handleLogsRequest` tail handling, `splitLines`, `joinLines`
* `pkg/package` (`Manager`) — `Unpack` target computation, `Verify`,
  `GetManifest`, `readManifest`
* `pkg/discovery/discovery.go` — `handleAnnouncement`, `cleanupStaleNodes`

Machine integers are modelled as `Int`/`Nat` (no overflow is reachable in
the embedded fragments), byte strings as `List Nat`, wall-clock instants
as `Nat` seconds, and Go maps as functions into `Option`.
-/

/-! ## Health checker (`pkg/health/health.go`) -/

/-- Embedding of `health.Config`: the fields consulted by the failure accounting. -/
structure HealthConfig where
  retries : Nat
deriving Repr, DecidableEq

/-- Mutable state of `health.Checker` relevant to failure accounting:
the `consecutiveFails` counter. -/
structure CheckerState where
  consecutiveFails : Nat
deriving Repr, DecidableEq

/-- Embedding of `health.Result`: the fields produced by `Checker.Check`. -/
structure HealthResult where
  healthy      : Bool
  failureCount : Nat
deriving Repr, DecidableEq

/-- Embedding of `Checker.Check` (health.go lines 92–131), given the outcome `checkOk`
of the underlying probe (process / http / tcp): on failure the
consecutive-failure counter is incremented, on success it resets to zero;
the result's `Healthy` field is `checkOk && consecutiveFails < retries`
evaluated on the updated counter. -/
def checkerCheck (cfg : HealthConfig) (st : CheckerState) (checkOk : Bool) :
    HealthResult × CheckerState :=
  let fails := if checkOk then 0 else st.consecutiveFails + 1
  ({ healthy := checkOk && decide (fails < cfg.retries), failureCount := fails },
   { consecutiveFails := fails })

/-- One tick of `Checker.StartMonitoring` (health.go lines 223–248):
the check runs, and the `onUnhealthy` callback fires exactly when the
returned result's `Healthy` field is false.  Returns the result, the new
state, and whether the callback fired. -/
def monitorTick (cfg : HealthConfig) (st : CheckerState) (checkOk : Bool) :
    HealthResult × CheckerState × Bool :=
  let (res, st') := checkerCheck cfg st checkOk
  (res, st', !res.healthy)

/-- The unhealthy callback that `Runtime.start` installs (runtime, lines
130–148): whenever it fires it triggers a `Restart` if and only if the
`autoRestart` flag passed to `start` is true — the carried failure counter
is not consulted. -/
def runtimeOnUnhealthy (autoRestart : Bool) (_result : HealthResult) : Bool :=
  autoRestart

/-- Whether one monitoring tick ends up triggering a `Restart`, composing
`Checker.StartMonitoring` with the callback installed by `Runtime.start`. -/
def tickTriggersRestart (cfg : HealthConfig) (st : CheckerState)
    (checkOk autoRestart : Bool) : Bool :=
  let (res, _, fired) := monitorTick cfg st checkOk
  fired && runtimeOnUnhealthy autoRestart res

/-- C3: the consecutive-failure counter increments by one on each failing
check and resets to zero on success, and `Healthy` is true iff the current
check succeeded and the (updated) consecutive-failure count is strictly
below `retries`; with `retries ≥ 1` a success always yields `Healthy = true`. -/
theorem C3_check_failure_accounting (cfg : HealthConfig) (st : CheckerState)
    (checkOk : Bool) :
    ((checkerCheck cfg st checkOk).2.consecutiveFails
        = if checkOk then 0 else st.consecutiveFails + 1)
    ∧ ((checkerCheck cfg st checkOk).1.healthy = true
        ↔ checkOk = true
          ∧ (checkerCheck cfg st checkOk).2.consecutiveFails < cfg.retries)
    ∧ (1 ≤ cfg.retries → checkOk = true →
        (checkerCheck cfg st checkOk).1.healthy = true) := by
  refine ⟨rfl, ?_, ?_⟩
  · simp [checkerCheck]
  · intro hr hok
    subst hok
    simp only [checkerCheck, Bool.true_and, decide_eq_true_eq, if_true]
    omega

/-- Witness for C3 at a concrete state: three retries, two failures so far,
a succeeding check. -/
theorem C3_check_failure_accounting_witness :
    (checkerCheck ⟨3⟩ ⟨2⟩ true).2.consecutiveFails = (if true then 0 else 2 + 1)
    ∧ ((checkerCheck ⟨3⟩ ⟨2⟩ true).1.healthy = true
        ↔ true = true ∧ (checkerCheck ⟨3⟩ ⟨2⟩ true).2.consecutiveFails < 3)
    ∧ (1 ≤ 3 → true = true → (checkerCheck ⟨3⟩ ⟨2⟩ true).1.healthy = true) :=
  C3_check_failure_accounting ⟨3⟩ ⟨2⟩ true

/-- C2 counterexample: with threshold `retries = 3`, a fresh checker and a
single failing tick, the installed callback already triggers a `Restart`
although unhealthy has been reported only once (1 < 3). -/
theorem C2_counterexample :
    tickTriggersRestart ⟨3⟩ ⟨0⟩ false true = true
    ∧ (checkerCheck ⟨3⟩ ⟨0⟩ false).1.failureCount = 1
    ∧ 1 < 3 := by
  decide

/-- C2 amended: for any threshold `retries ≥ 1`, the `onUnhealthy` callback
fires on every failing tick, and the handler installed by `Runtime.start`
triggers a `Restart` exactly when the check failed and `auto_restart` is
true — the failure counter carried by the result is never compared against
the threshold by the handler. -/
theorem C2_restart_on_every_failing_tick (cfg : HealthConfig)
    (st : CheckerState) (checkOk autoRestart : Bool) (hr : 1 ≤ cfg.retries) :
    tickTriggersRestart cfg st checkOk autoRestart = (!checkOk && autoRestart) := by
  cases checkOk
  · simp [tickTriggersRestart, monitorTick, checkerCheck, runtimeOnUnhealthy]
  · simp only [tickTriggersRestart, monitorTick, checkerCheck, runtimeOnUnhealthy,
      Bool.true_and, Bool.not_true, Bool.false_and]
    have : (0 < cfg.retries) = True := by simp; omega
    simp [this]

/-- Witness for the amended C2 statement: threshold 3, one prior failure,
a failing tick with auto-restart on triggers a restart. -/
theorem C2_restart_on_every_failing_tick_witness :
    tickTriggersRestart ⟨3⟩ ⟨1⟩ false true = (!false && true) :=
  C2_restart_on_every_failing_tick ⟨3⟩ ⟨1⟩ false true (by decide)

/-! ## Deploy body transfer (`pkg/daemon/daemon.go`, `receiveFile`) -/

/-- The read loop of `Daemon.receiveFile` (daemon.go lines 285–303).
The stream is modelled as the list of chunks successive `Read` calls
deliver (each at most 64 KiB in the source; the bound is irrelevant to the
accounting); once the list is exhausted every further read returns
`n = 0` (EOF).  While `received < expectedSize` the loop takes the next
chunk, breaks on `n = 0`, appends the chunk to the file, and adds `n` to
`received`.  Returns the final `received` counter and the bytes written. -/
def receiveFileAux (expectedSize : Int) :
    List (List Nat) → Int → List Nat → Int × List Nat
  | [], received, written => (received, written)
  | c :: rest, received, written =>
      if received < expectedSize then
        if c.length = 0 then (received, written)
        else receiveFileAux expectedSize rest (received + c.length) (written ++ c)
      else (received, written)

/-- Embedding of `Daemon.receiveFile` (daemon.go lines 278–311): runs the read loop from
`received = 0` and an empty file, then fails with the "incomplete transfer"
error iff the final `received` differs from `expectedSize`.  The second
component is the file content written to disk. -/
def receiveFile (chunks : List (List Nat)) (expectedSize : Int) :
    Except String Unit × List Nat :=
  let out := receiveFileAux expectedSize chunks 0 []
  (if out.1 = expectedSize then Except.ok ()
   else Except.error "incomplete transfer", out.2)

/-- Bookkeeping invariant of the read loop: it appends a prefix of the
remaining stream to the file and advances `received` by its length. -/
theorem receiveFileAux_spec (expectedSize : Int) (chunks : List (List Nat))
    (received : Int) (written : List Nat) :
    ∃ t, (receiveFileAux expectedSize chunks received written).2 = written ++ t
      ∧ (receiveFileAux expectedSize chunks received written).1
          = received + t.length
      ∧ t = (chunks.flatten).take t.length := by
  induction chunks generalizing received written with
  | nil => exact ⟨[], by simp [receiveFileAux]⟩
  | cons c rest ih =>
    by_cases hlt : received < expectedSize
    · by_cases hc : c.length = 0
      · have hcnil : c = [] := List.eq_nil_of_length_eq_zero hc
        subst hcnil
        exact ⟨[], by simp [receiveFileAux, hlt]⟩
      · obtain ⟨t, h2, h1, ht⟩ := ih (received + c.length) (written ++ c)
        refine ⟨c ++ t, ?_, ?_, ?_⟩
        · simp only [receiveFileAux, if_pos hlt, if_neg hc, h2, List.append_assoc]
        · simp only [receiveFileAux, if_pos hlt, if_neg hc, h1, List.length_append]
          push_cast
          ring
        · rw [List.length_append, List.flatten_cons, List.take_append_eq_append_take,
            List.take_of_length_le (Nat.le_add_right _ _), Nat.add_sub_cancel_left]
          exact congrArg (fun l => c ++ l) ht
    · exact ⟨[], by simp [receiveFileAux, hlt]⟩

/-- If every delivered chunk is nonempty and the stream carries exactly the
remaining expected bytes, the loop consumes the whole stream. -/
theorem receiveFileAux_complete (expectedSize : Int) (chunks : List (List Nat))
    (received : Int) (written : List Nat)
    (hne : ∀ c ∈ chunks, c ≠ [])
    (hlen : received + ((chunks.flatten).length : Int) = expectedSize) :
    receiveFileAux expectedSize chunks received written
      = (expectedSize, written ++ chunks.flatten) := by
  induction chunks generalizing received written with
  | nil =>
    simp only [List.flatten_nil, List.length_nil, Nat.cast_zero, add_zero] at hlen
    simp [receiveFileAux, hlen]
  | cons c rest ih =>
    have hc : c ≠ [] := hne c (by simp)
    have hc0 : ¬ c.length = 0 := fun h0 => hc (List.eq_nil_of_length_eq_zero h0)
    have hc1 : 1 ≤ c.length := Nat.one_le_iff_ne_zero.mpr hc0
    have hlen' : received + (c.length : Int) + ((rest.flatten).length : Int)
        = expectedSize := by
      rw [List.flatten_cons, List.length_append] at hlen
      push_cast at hlen
      omega
    have hlt : received < expectedSize := by omega
    rw [show receiveFileAux expectedSize (c :: rest) received written
        = receiveFileAux expectedSize rest (received + c.length) (written ++ c) by
          simp only [receiveFileAux, if_pos hlt, if_neg hc0],
      ih (received + c.length) (written ++ c)
        (fun d hd => hne d (List.mem_cons_of_mem _ hd)) hlen',
      List.flatten_cons, List.append_assoc]

/-- C4: whenever `receiveFile` succeeds the file holds exactly the next
`N` bytes of the stream; a stream delivering exactly `N` bytes in nonempty
chunks succeeds with precisely those bytes on disk; a short stream (fewer
than `N` bytes before EOF) is rejected; and in general any run whose final
`received` counter differs from the declared `N` returns the
"incomplete transfer" error. -/
theorem C4_receiveFile_exact_size (chunks : List (List Nat)) (N : Int) :
    ((receiveFile chunks N).1 = Except.ok () →
        0 ≤ N ∧ ((receiveFile chunks N).2.length : Int) = N
          ∧ (receiveFile chunks N).2 = (chunks.flatten).take N.toNat)
    ∧ ((∀ c ∈ chunks, c ≠ []) → ((chunks.flatten).length : Int) = N →
        (receiveFile chunks N).1 = Except.ok ()
          ∧ (receiveFile chunks N).2 = chunks.flatten)
    ∧ (((chunks.flatten).length : Int) < N →
        ∃ e, (receiveFile chunks N).1 = Except.error e)
    ∧ ((receiveFileAux N chunks 0 []).1 ≠ N →
        ∃ e, (receiveFile chunks N).1 = Except.error e) := by
  obtain ⟨t, h2, h1, ht⟩ := receiveFileAux_spec N chunks 0 []
  rw [List.nil_append] at h2
  rw [Int.zero_add] at h1
  have hle : t.length ≤ (chunks.flatten).length := by
    have hlen := congrArg List.length ht
    rw [List.length_take] at hlen
    omega
  have hfst : (receiveFile chunks N).1
      = if (receiveFileAux N chunks 0 []).1 = N then Except.ok ()
        else Except.error "incomplete transfer" := rfl
  have hsnd : (receiveFile chunks N).2 = t := h2
  refine ⟨?_, ?_, ?_, ?_⟩
  · intro hok
    have hrec : (receiveFileAux N chunks 0 []).1 = N := by
      by_contra hne
      rw [hfst, if_neg hne] at hok
      cases hok
    have htN : (t.length : Int) = N := by rw [← hrec, h1]
    refine ⟨by omega, ?_, ?_⟩
    · rw [hsnd]
      exact htN
    · have htoN : N.toNat = t.length := by omega
      rw [hsnd, htoN]
      exact ht
  · intro hne hl
    have hcomp := receiveFileAux_complete N chunks 0 [] hne
      (by rw [Int.zero_add]; exact hl)
    rw [List.nil_append] at hcomp
    constructor
    · rw [hfst, hcomp]
      simp
    · show (receiveFileAux N chunks 0 []).2 = chunks.flatten
      rw [hcomp]
  · intro hshort
    exact ⟨"incomplete transfer", by rw [hfst, if_neg (by omega)]⟩
  · intro hne
    exact ⟨"incomplete transfer", by rw [hfst, if_neg hne]⟩

/-- Witness for C4: two chunks of sizes 2 and 1 against `file_size = 3`
succeed and write exactly those three bytes. -/
theorem C4_receiveFile_exact_size_witness :
    (receiveFile [[10, 20], [30]] 3).1 = Except.ok ()
      ∧ (receiveFile [[10, 20], [30]] 3).2 = [[10, 20], [30]].flatten :=
  (C4_receiveFile_exact_size [[10, 20], [30]] 3).2.1 (by decide) (by decide)

/-! ## Logs tail handling (`pkg/daemon/daemon.go`, `handleLogsRequest`) -/

/-- The scanning loop of the `splitLines` helper (daemon.go lines 508–521):
walks the characters accumulating the current line (reversed); a newline
flushes it, and a nonempty trailing accumulator is flushed at the end
(`if start < len(s)`). -/
def splitLinesGo : List Char → List Char → List (List Char)
  | [], acc => if acc = [] then [] else [acc.reverse]
  | c :: rest, acc =>
      if c = '\n' then acc.reverse :: splitLinesGo rest []
      else splitLinesGo rest (c :: acc)

/-- Embedding of `splitLines` (daemon.go lines 508–521) over the characters of the log. -/
def splitLines (s : List Char) : List (List Char) :=
  splitLinesGo s []

/-- Embedding of `joinLines` (daemon.go lines 523–532): concatenates the lines with a
single newline between consecutive lines and none at the end. -/
def joinLines (lines : List (List Char)) : List Char :=
  (List.intersperse ['\n'] lines).flatten

/-- The tail application step of `Daemon.handleLogsRequest` (daemon.go
lines 460–472): when `req.Tail > 0`, split the captured log into lines,
keep only nonempty lines, keep the last `Tail` of them when there are
more, and join with newlines; otherwise return the log verbatim. -/
def applyTail (tail : Int) (logs : List Char) : List Char :=
  if 0 < tail then
    let lines := (splitLines logs).filter (fun l => !l.isEmpty)
    let kept := if tail < (lines.length : Int) then
        lines.drop (lines.length - tail.toNat)
      else lines
    joinLines kept
  else logs

/-- C7 counterexample: the log "a\nb\n" has 2 lines; a request with
`tail = 5 > 2` does not return the entire log — the handler drops the
trailing newline, returning "a\nb". -/
theorem C7_counterexample :
    (splitLines [Char.ofNat 97, Char.ofNat 10, Char.ofNat 98, Char.ofNat 10]).length = 2
    ∧ (2 : Int) < 5
    ∧ applyTail 5 [Char.ofNat 97, Char.ofNat 10, Char.ofNat 98, Char.ofNat 10]
        ≠ [Char.ofNat 97, Char.ofNat 10, Char.ofNat 98, Char.ofNat 10] := by
  decide

/-- C7 amended: with `tail ≤ 0` the handler returns the captured log bytes
verbatim; with `tail > 0` it returns the join (single newlines, no
trailing newline) of a suffix of the log's nonempty lines, at most `tail`
of them, and when `tail` is at least the number of nonempty lines that
suffix is all of the nonempty lines — which equals the entire log only
when the log has no empty lines and no trailing newline. -/
theorem C7_tail_lines (logs : List Char) (tail : Int) :
    (¬ 0 < tail → applyTail tail logs = logs)
    ∧ (0 < tail →
        ∃ ls, (∃ pre, pre ++ ls = (splitLines logs).filter (fun l => !l.isEmpty))
          ∧ (ls.length : Int) ≤ tail
          ∧ applyTail tail logs = joinLines ls
          ∧ (((splitLines logs).filter (fun l => !l.isEmpty)).length ≤ tail.toNat →
              ls = (splitLines logs).filter (fun l => !l.isEmpty))) := by
  constructor
  · intro hle
    simp [applyTail, hle]
  · intro hpos
    by_cases hmore :
        tail < (((splitLines logs).filter (fun l => !l.isEmpty)).length : Int)
    · refine ⟨((splitLines logs).filter (fun l => !l.isEmpty)).drop
        (((splitLines logs).filter (fun l => !l.isEmpty)).length - tail.toNat),
        ⟨((splitLines logs).filter (fun l => !l.isEmpty)).take
          (((splitLines logs).filter (fun l => !l.isEmpty)).length - tail.toNat),
          List.take_append_drop _ _⟩, ?_, ?_, ?_⟩
      · rw [List.length_drop]
        omega
      · simp only [applyTail, if_pos hpos, if_pos hmore]
      · intro hfit
        omega
    · refine ⟨(splitLines logs).filter (fun l => !l.isEmpty),
        ⟨[], List.nil_append _⟩, by omega, ?_, fun _ => rfl⟩
      simp only [applyTail, if_pos hpos, if_neg hmore]

/-- Witness for the amended C7 statement: `tail = 0` returns the log
verbatim at a concrete log. -/
theorem C7_tail_lines_witness :
    applyTail 0 [Char.ofNat 97, Char.ofNat 10] = [Char.ofNat 97, Char.ofNat 10] :=
  (C7_tail_lines [Char.ofNat 97, Char.ofNat 10] 0).1 (by decide)

/-! ## Package manager (`pkg/package`, `Manager`) -/

/-- The health-check pointer of `types.Manifest`, reduced to the field the
runtime consults when wiring the monitor (`HealthCheck != nil` plus the
retry threshold). -/
structure Manifest where
  name        : String
  version     : String
  entrypoint  : String
  healthCheck : Option HealthConfig
deriving Repr, DecidableEq

/-- Errors of the package manager that the embedded fragments produce. -/
inductive PkgError
  | invalidManifest
  | parseFailure
  | missingName
  | missingVersion
  | missingEntrypoint
deriving Repr, DecidableEq

/-- Embedding of `Manager.readManifest` (package manager, lines 701–724).  The yaml
parse result is modelled as `Option Manifest` (`none` = `yaml.Unmarshal`
failed).  The three required fields are validated; each missing field is a
distinct error wrapping `ErrInvalidManifest`. -/
def readManifest (parsed : Option Manifest) : Except PkgError Manifest :=
  match parsed with
  | none => Except.error PkgError.parseFailure
  | some m =>
      if m.name = "" then Except.error PkgError.missingName
      else if m.version = "" then Except.error PkgError.missingVersion
      else if m.entrypoint = "" then Except.error PkgError.missingEntrypoint
      else Except.ok m

/-- Tar entry type flags handled by `Unpack` (`TypeDir` / `TypeReg`). -/
inductive TarType
  | dir
  | reg
deriving Repr, DecidableEq

/-- A tar entry as the package manager sees it: the header name, the type
flag, and — for `manifest.yaml` contents — their yaml parse result. -/
structure TarEntry where
  name     : String
  typeflag : TarType
  parsed   : Option Manifest
deriving Repr, DecidableEq

/-- Embedding of `Manager.GetManifest` (lines 656–698): scan the archive for the first
entry named `manifest.yaml`, unmarshal it and return it — with no
validation of required fields; a parse failure or a missing entry is an
error (`ErrInvalidManifest` for the latter). -/
def getManifest : List TarEntry → Except PkgError Manifest
  | [] => Except.error PkgError.invalidManifest
  | e :: rest =>
      if e.name = "manifest.yaml" then
        match e.parsed with
        | none => Except.error PkgError.parseFailure
        | some m => Except.ok m
      else getManifest rest

/-- The manifest tracking of `Manager.Unpack` (lines 592–641): every
regular entry named `manifest.yaml` overwrites the loop's `manifest`
variable with `readManifest`'s result, errors discarded (`manifest, _ =`);
after the loop a `nil` manifest is `ErrInvalidManifest`. -/
def unpackManifest (entries : List TarEntry) : Except PkgError Manifest :=
  let final := entries.foldl (fun acc e =>
    if e.typeflag = TarType.reg ∧ e.name = "manifest.yaml" then
      (readManifest e.parsed).toOption
    else acc) none
  match final with
  | none => Except.error PkgError.invalidManifest
  | some m => Except.ok m

/-- Lexical path cleaning as Go's `filepath.Join` performs on an absolute
base: empty and `.` components vanish, `..` removes the previous component
and is dropped at the root. -/
def cleanComponents (comps : List String) : List String :=
  comps.foldl (fun acc c =>
    if c = "" ∨ c = "." then acc
    else if c = ".." then acc.dropLast
    else acc ++ [c]) []

/-- Embedding of `filepath.Join(destDir, header.Name)` (Unpack line 604) on component
lists: concatenate, then clean. -/
def joinPath (dest entry : List String) : List String :=
  cleanComponents (dest ++ entry)

/-- Character-level splitting of a tar header name on `/`. -/
def splitPathGo : List Char → List Char → List String
  | [], acc => [String.mk acc.reverse]
  | c :: rest, acc =>
      if c = '/' then String.mk acc.reverse :: splitPathGo rest []
      else splitPathGo rest (c :: acc)

/-- Split a tar header name on `/` into path components. -/
def splitPath (name : String) : List String :=
  splitPathGo name.data []

/-- The filesystem targets `Manager.Unpack` (lines 594–635) creates:
`filepath.Join(destDir, header.Name)` for every entry, in order (directory
creation for `TypeDir`, file creation for `TypeReg`). -/
def unpackTargets (dest : List String) (entries : List TarEntry) :
    List (List String) :=
  entries.map (fun e => joinPath dest (splitPath e.name))

/-- Containment of a target path in the destination directory: the
destination's components are an initial segment of the target's. -/
def isWithin (dest target : List String) : Prop :=
  target.take dest.length = dest

instance (dest target : List String) : Decidable (isWithin dest target) := by
  unfold isWithin
  infer_instance

/-- Embedding of `Manager.Verify` (lines 645–653): the current implementation only
checks that the package file exists; the signature bytes are never
inspected ("TODO: Implement signature verification" in the source). -/
def managerVerify (pkgExists : Bool) (_signatureBytes : List Nat) :
    Except String Unit :=
  if pkgExists then Except.ok () else Except.error "package not found"

/-- C10 counterexample: an archive whose `manifest.yaml` parses but has an
empty required `name` field — `GetManifest` returns the manifest without
error, while `readManifest` (used by `Pack` and by `Unpack`'s loop) rejects
the same document. -/
theorem C10_counterexample :
    getManifest [⟨"manifest.yaml", TarType.reg, some ⟨"", "1.0.0", "bin/app", none⟩⟩]
      = Except.ok ⟨"", "1.0.0", "bin/app", none⟩
    ∧ readManifest (some ⟨"", "1.0.0", "bin/app", none⟩)
      = Except.error PkgError.missingName :=
  ⟨rfl, rfl⟩

/-- C10 amended: `readManifest` fails on any manifest missing a required
field, and consequently `Unpack` (whose loop validates via `readManifest`)
fails with `ErrInvalidManifest` on such an archive — but `GetManifest`
itself performs no field validation: it returns whatever parsed, and only
reports an error when `manifest.yaml` is absent or unparseable. -/
theorem C10_manifest_validation (m : Manifest) (rest : List TarEntry)
    (ty : TarType) (hmiss : m.name = "" ∨ m.version = "" ∨ m.entrypoint = "") :
    (∃ e, readManifest (some m) = Except.error e)
    ∧ unpackManifest [⟨"manifest.yaml", TarType.reg, some m⟩]
        = Except.error PkgError.invalidManifest
    ∧ getManifest (⟨"manifest.yaml", ty, some m⟩ :: rest) = Except.ok m
    ∧ getManifest [] = Except.error PkgError.invalidManifest := by
  have hval : ∃ e, readManifest (some m) = Except.error e := by
    by_cases hn : m.name = ""
    · exact ⟨PkgError.missingName, by simp [readManifest, hn]⟩
    · by_cases hv : m.version = ""
      · exact ⟨PkgError.missingVersion, by simp [readManifest, hn, hv]⟩
      · have he : m.entrypoint = "" := by tauto
        exact ⟨PkgError.missingEntrypoint, by simp [readManifest, hn, hv, he]⟩
  refine ⟨hval, ?_, ?_, rfl⟩
  · obtain ⟨e, he⟩ := hval
    simp [unpackManifest, he, Except.toOption]
  · simp [getManifest]

/-- Witness for the amended C10 statement at a concrete manifest with an
empty `name`. -/
theorem C10_manifest_validation_witness :
    (∃ e, readManifest (some ⟨"", "1.0.0", "bin/app", none⟩) = Except.error e)
    ∧ unpackManifest [⟨"manifest.yaml", TarType.reg, some ⟨"", "1.0.0", "bin/app", none⟩⟩]
        = Except.error PkgError.invalidManifest
    ∧ getManifest (⟨"manifest.yaml", TarType.reg, some ⟨"", "1.0.0", "bin/app", none⟩⟩ :: [])
        = Except.ok ⟨"", "1.0.0", "bin/app", none⟩
    ∧ getManifest [] = Except.error PkgError.invalidManifest :=
  C10_manifest_validation ⟨"", "1.0.0", "bin/app", none⟩ [] TarType.reg (Or.inl rfl)

/-- Which components survive `filepath.Join`-style cleaning: everything but
empty and `.` components. -/
def keepComp (c : String) : Bool :=
  !(decide (c = "" ∨ c = "."))

/-- The cleaning fold, in the absence of `..` components, just appends the
surviving components to the accumulator. -/
theorem cleanFold_no_dotdot (l : List String) (acc : List String)
    (h : ".." ∉ l) :
    l.foldl (fun acc c =>
      if c = "" ∨ c = "." then acc
      else if c = ".." then acc.dropLast
      else acc ++ [c]) acc = acc ++ l.filter keepComp := by
  induction l generalizing acc with
  | nil => simp
  | cons c rest ih =>
    have hc : c ≠ ".." := fun hceq => h (by simp [hceq])
    have hrest : ".." ∉ rest := fun hmem => h (by simp [hmem])
    by_cases hk : c = "" ∨ c = "."
    · have hkc : keepComp c = false := by simp [keepComp, hk]
      simp only [List.foldl_cons, if_pos hk, List.filter_cons, hkc]
      rw [ih acc hrest]
      simp
    · have hkc : keepComp c = true := by simp [keepComp]; tauto
      simp only [List.foldl_cons, if_neg hk, if_neg hc, List.filter_cons, hkc]
      rw [ih (acc ++ [c]) hrest]
      simp

/-- Joining a clean destination with traversal-free components lands inside
the destination: the result is the destination followed by the surviving
entry components. -/
theorem joinPath_no_dotdot (dest comps : List String)
    (hdest : ∀ c ∈ dest, ¬(c = "" ∨ c = "." ∨ c = ".."))
    (hcomps : ".." ∉ comps) :
    joinPath dest comps = dest ++ comps.filter keepComp := by
  unfold joinPath cleanComponents
  have hnod : ".." ∉ dest ++ comps := by
    intro hmem
    rcases List.mem_append.mp hmem with h1 | h2
    · exact (hdest _ h1) (Or.inr (Or.inr rfl))
    · exact hcomps h2
  rw [cleanFold_no_dotdot _ _ hnod, List.nil_append, List.filter_append]
  have hself : dest.filter keepComp = dest := by
    apply List.filter_eq_self.mpr
    intro a ha
    have := hdest a ha
    simp [keepComp]
    tauto
  rw [hself]

/-- Prepending a list and taking its length gives it back. -/
theorem take_length_append (dest x : List String) :
    (dest ++ x).take dest.length = dest := by
  rw [List.take_append_eq_append_take, List.take_of_length_le le_rfl,
    Nat.sub_self, List.take_zero, List.append_nil]

/-- C8 counterexample: extracting an archive holding a single entry named
`../evil` into destination `data/apps/hello-1.0.0` writes
`data/apps/evil`, which is outside the destination directory. -/
theorem C8_counterexample :
    unpackTargets ["data", "apps", "hello-1.0.0"]
        [⟨"../evil", TarType.reg, none⟩]
      = [["data", "apps", "evil"]]
    ∧ ¬ isWithin ["data", "apps", "hello-1.0.0"] ["data", "apps", "evil"] := by
  decide

/-- C8 amended: for archives whose entry names contain no `..` component,
every directory and file target computed by `Unpack` lies within the
destination directory (assuming the destination path itself is in normal
form); entries using `..` can escape it. -/
theorem C8_unpack_confined (dest : List String) (entries : List TarEntry)
    (hdest : ∀ c ∈ dest, ¬(c = "" ∨ c = "." ∨ c = ".."))
    (hent : ∀ e ∈ entries, ".." ∉ splitPath e.name) :
    ∀ tgt ∈ unpackTargets dest entries, isWithin dest tgt := by
  intro tgt htgt
  unfold unpackTargets at htgt
  obtain ⟨e, he, rfl⟩ := List.mem_map.mp htgt
  rw [show joinPath dest (splitPath e.name)
      = dest ++ (splitPath e.name).filter keepComp from
    joinPath_no_dotdot dest _ hdest (hent e he)]
  exact take_length_append dest _

/-- Witness for the amended C8 statement: the entry `bin/app` extracted
into `apps/hello-1.0.0` stays inside the destination. -/
theorem C8_unpack_confined_witness :
    isWithin ["apps", "hello-1.0.0"]
      (joinPath ["apps", "hello-1.0.0"] (splitPath "bin/app")) := by
  have h := C8_unpack_confined ["apps", "hello-1.0.0"]
    [⟨"bin/app", TarType.reg, none⟩]
    (by decide) (by decide)
  exact h _ (by decide)

/-! ## Runtime / supervisor (`pkg/runtime`, current revision) -/

/-- Embedding of `types.AppStatusType`. -/
inductive AppStatusType
  | stopped
  | starting
  | running
  | failed
  | restarting
deriving Repr, DecidableEq

/-- Embedding of `types.Application`: the fields the embedded runtime fragments read or
write. -/
structure Application where
  id       : String
  name     : String
  version  : String
  manifest : Manifest
  status   : AppStatusType
  pid      : Int
  workDir  : List String
deriving Repr, DecidableEq

/-- Embedding of `runtime.appInfo`: the stored application record, whether a health
monitor is installed (`cancelHealth != nil`), and the `autoRestart` flag
captured at `start`. -/
structure AppInfo where
  app              : Application
  hasHealthMonitor : Bool
  autoRestart      : Bool
deriving Repr, DecidableEq

/-- The runtime's app table (`Runtime.apps`), a Go map modelled as a
function. -/
def RuntimeApps : Type := String → Option AppInfo

/-- Map update, as performed under the table mutex. -/
def updateApps (apps : RuntimeApps) (k : String) (v : AppInfo) : RuntimeApps :=
  fun q => if q = k then some v else apps q

/-- Errors of the embedded runtime fragments (`types.ErrNotFound`,
`types.ErrAppNotRunning`, `types.ErrAppAlreadyRunning`, wrapped signal and
spawn failures). -/
inductive RuntimeError
  | notFound
  | appNotRunning
  | appAlreadyRunning
  | signalFailed
  | startFailed
deriving Repr, DecidableEq

/-- Signals sent by `Runtime.Stop`. -/
inductive StopEvent
  | sigterm
  | sigkill
deriving Repr, DecidableEq

/-- The grace period `Runtime.Stop` waits before forcing a kill, seconds
(`time.After(10 * time.Second)`). -/
def stopGraceSeconds : Nat := 10

/-- Embedding of `Runtime.Stop` (runtime, lines 238–288).  Process interaction is
modelled by two oracles: `signalOk` (the SIGTERM delivery succeeds) and
`gracefulExit` (the process exits within the 10-second grace period;
otherwise SIGKILL is sent).  Returns the result, the updated table, and
the signals sent.  An absent record is `ErrNotFound`; a record whose
status is not `running` is `ErrAppNotRunning`, with the table untouched.
On the success path the health monitor is cancelled, SIGTERM is sent,
SIGKILL follows iff the grace period elapses, and the record ends with
`status = stopped`, `pid = 0`. -/
def runtimeStop (apps : RuntimeApps) (appID : String)
    (gracefulExit signalOk : Bool) :
    Except RuntimeError Unit × RuntimeApps × List StopEvent :=
  match apps appID with
  | none => (Except.error RuntimeError.notFound, apps, [])
  | some info =>
      if info.app.status ≠ AppStatusType.running then
        (Except.error RuntimeError.appNotRunning, apps, [])
      else
        let info1 : AppInfo := { info with hasHealthMonitor := false }
        let apps1 := updateApps apps appID info1
        if !signalOk then
          (Except.error RuntimeError.signalFailed, apps1, [])
        else
          let events := if gracefulExit then [StopEvent.sigterm]
            else [StopEvent.sigterm, StopEvent.sigkill]
          let info2 : AppInfo := { info1 with
            app := { info1.app with status := AppStatusType.stopped, pid := 0 } }
          (Except.ok (), updateApps apps appID info2, events)

/-- Embedding of `Runtime.start` (runtime, lines 53–198).  Spawning is modelled by the
oracle `spawnOk` and the fresh `newPid`.  A record already `running` is
`ErrAppAlreadyRunning`; a spawn failure leaves the table unchanged; on
success the stored record carries `status = running`, the new pid, a
health monitor iff the manifest has a `health_check`, and the
`autoRestart` flag passed in. -/
def runtimeStart (apps : RuntimeApps) (app : Application) (autoRestart : Bool)
    (spawnOk : Bool) (newPid : Int) :
    Except RuntimeError Unit × RuntimeApps :=
  let alreadyRunning : Bool := match apps app.id with
    | some existing => decide (existing.app.status = AppStatusType.running)
    | none => false
  if alreadyRunning then (Except.error RuntimeError.appAlreadyRunning, apps)
  else if !spawnOk then (Except.error RuntimeError.startFailed, apps)
  else
    let app1 := { app with status := AppStatusType.running, pid := newPid }
    let info : AppInfo := ⟨app1, app.manifest.healthCheck.isSome, autoRestart⟩
    (Except.ok (), updateApps apps app.id info)

/-- Embedding of `Runtime.Restart` (runtime, lines 291–322): read the stored
`autoRestart` flag, `Stop` (ignoring `ErrAppNotRunning`), re-read the
record, and `start` its application with the same flag. -/
def runtimeRestart (apps : RuntimeApps) (appID : String)
    (gracefulExit signalOk spawnOk : Bool) (newPid : Int) :
    Except RuntimeError Unit × RuntimeApps :=
  match apps appID with
  | none => (Except.error RuntimeError.notFound, apps)
  | some info =>
      let autoRestart := info.autoRestart
      let stopOut := runtimeStop apps appID gracefulExit signalOk
      let apps1 := stopOut.2.1
      let proceed : Bool := match stopOut.1 with
        | Except.ok _ => true
        | Except.error e => decide (e = RuntimeError.appNotRunning)
      if proceed then
        match apps1 appID with
        | none => (Except.error RuntimeError.notFound, apps1)
        | some info1 => runtimeStart apps1 info1.app autoRestart spawnOk newPid
      else
        (match stopOut.1 with
         | Except.ok _ => Except.ok ()
         | Except.error e => Except.error e, apps1)

/-- A `Runtime.Stop` of a present but non-running record fails with
`ErrAppNotRunning`, touching nothing. -/
theorem runtimeStop_not_running (apps : RuntimeApps) (appID : String)
    (info : AppInfo) (g s : Bool) (hlook : apps appID = some info)
    (hnr : info.app.status ≠ AppStatusType.running) :
    runtimeStop apps appID g s
      = (Except.error RuntimeError.appNotRunning, apps, []) := by
  simp [runtimeStop, hlook, hnr]

/-- C5: with a record present, stopping a non-running app fails with
`ErrAppNotRunning` and leaves the table (and the process) untouched;
stopping a running app (deliverable SIGTERM) succeeds, cancels the health
monitor, sends SIGTERM, force-kills exactly when the grace period elapses,
and leaves the record with `status = stopped`, `pid = 0`; a second `Stop`
right after then returns `ErrAppNotRunning` with no further side effects. -/
theorem C5_stop_semantics (apps : RuntimeApps) (appID : String) (info : AppInfo)
    (g s : Bool) (hlook : apps appID = some info) :
    (info.app.status ≠ AppStatusType.running →
        (runtimeStop apps appID g s).1 = Except.error RuntimeError.appNotRunning
          ∧ (runtimeStop apps appID g s).2.1 = apps
          ∧ (runtimeStop apps appID g s).2.2 = [])
    ∧ (info.app.status = AppStatusType.running → s = true →
        (runtimeStop apps appID g s).1 = Except.ok ()
          ∧ (∃ info2, (runtimeStop apps appID g s).2.1 appID = some info2
              ∧ info2.app.status = AppStatusType.stopped ∧ info2.app.pid = 0
              ∧ info2.hasHealthMonitor = false)
          ∧ StopEvent.sigterm ∈ (runtimeStop apps appID g s).2.2
          ∧ (StopEvent.sigkill ∈ (runtimeStop apps appID g s).2.2 ↔ g = false)
          ∧ (∀ g2 s2,
              (runtimeStop (runtimeStop apps appID g s).2.1 appID g2 s2).1
                  = Except.error RuntimeError.appNotRunning
                ∧ (runtimeStop (runtimeStop apps appID g s).2.1 appID g2 s2).2.1
                  = (runtimeStop apps appID g s).2.1
                ∧ (runtimeStop (runtimeStop apps appID g s).2.1 appID g2 s2).2.2
                  = [])) := by
  constructor
  · intro hnr
    simp [runtimeStop, hlook, hnr]
  · intro hr hs
    subst hs
    have hstop : runtimeStop apps appID g true
        = (Except.ok (),
           updateApps apps appID
             ⟨{ info.app with status := AppStatusType.stopped, pid := 0 },
              false, info.autoRestart⟩,
           if g then [StopEvent.sigterm]
           else [StopEvent.sigterm, StopEvent.sigkill]) := by
      simp [runtimeStop, hlook, hr]
    have hlook2 : (runtimeStop apps appID g true).2.1 appID
        = some ⟨{ info.app with status := AppStatusType.stopped, pid := 0 },
                false, info.autoRestart⟩ := by
      rw [hstop]
      simp [updateApps]
    refine ⟨by rw [hstop], ⟨_, hlook2, rfl, rfl, rfl⟩, ?_, ?_, ?_⟩
    · rw [hstop]
      cases g <;> simp
    · rw [hstop]
      cases g <;> simp
    · intro g2 s2
      rw [runtimeStop_not_running _ _ _ g2 s2 hlook2 (by simp)]
      exact ⟨rfl, rfl, rfl⟩

/-- A concrete stored application used by the runtime witnesses. -/
def appInfoSample : AppInfo :=
  ⟨⟨"hello-world-1.0.0", "hello-world", "1.0.0",
    ⟨"hello-world", "1.0.0", "bin/hello-world", none⟩,
    AppStatusType.running, 42, ["apps", "hello-world-1.0.0"]⟩, false, true⟩

/-- A concrete one-entry app table used by the runtime witnesses. -/
def appsSample : RuntimeApps :=
  fun q => if q = "hello-world-1.0.0" then some appInfoSample else none

/-- Witness for C5: stopping the running sample app succeeds, and a second
`Stop` reports `ErrAppNotRunning`. -/
theorem C5_stop_semantics_witness :
    (runtimeStop appsSample "hello-world-1.0.0" true true).1 = Except.ok ()
    ∧ (runtimeStop (runtimeStop appsSample "hello-world-1.0.0" true true).2.1
        "hello-world-1.0.0" true true).1
      = Except.error RuntimeError.appNotRunning :=
  ⟨((C5_stop_semantics appsSample "hello-world-1.0.0" appInfoSample true true
      rfl).2 rfl rfl).1,
   (((C5_stop_semantics appsSample "hello-world-1.0.0" appInfoSample true true
      rfl).2 rfl rfl).2.2.2.2 true true).1⟩

/-- Shape of a successful `Runtime.Stop` of a running app. -/
theorem runtimeStop_running (apps : RuntimeApps) (appID : String)
    (info : AppInfo) (g : Bool) (hlook : apps appID = some info)
    (hr : info.app.status = AppStatusType.running) :
    runtimeStop apps appID g true
      = (Except.ok (),
         updateApps apps appID
           ⟨{ info.app with status := AppStatusType.stopped, pid := 0 },
            false, info.autoRestart⟩,
         if g then [StopEvent.sigterm]
         else [StopEvent.sigterm, StopEvent.sigkill]) := by
  simp [runtimeStop, hlook, hr]

/-- Shape of `Runtime.Stop` when SIGTERM delivery fails: the error is
returned after the health monitor was already cancelled. -/
theorem runtimeStop_signal_failed (apps : RuntimeApps) (appID : String)
    (info : AppInfo) (g : Bool) (hlook : apps appID = some info)
    (hr : info.app.status = AppStatusType.running) :
    runtimeStop apps appID g false
      = (Except.error RuntimeError.signalFailed,
         updateApps apps appID { info with hasHealthMonitor := false }, []) := by
  simp [runtimeStop, hlook, hr]

/-- Shape of `Runtime.start` when no record under the app's id is
running: a spawn failure leaves the table unchanged, a successful spawn
stores the running record with the passed `autoRestart` flag. -/
theorem runtimeStart_not_running (apps : RuntimeApps) (app : Application)
    (ar sp : Bool) (pid : Int)
    (hnotrun : ∀ ex, apps app.id = some ex →
      ex.app.status ≠ AppStatusType.running) :
    runtimeStart apps app ar sp pid
      = if sp then
          (Except.ok (), updateApps apps app.id
            ⟨{ app with status := AppStatusType.running, pid := pid },
             app.manifest.healthCheck.isSome, ar⟩)
        else
          (Except.error RuntimeError.startFailed, apps) := by
  unfold runtimeStart
  have hnotr : (match apps app.id with
      | some existing => decide (existing.app.status = AppStatusType.running)
      | none => false) = false := by
    cases hx : apps app.id with
    | none => rfl
    | some ex => simp [hnotrun ex hx]
  rw [hnotr]
  cases sp <;> simp

/-- A `Runtime.start` against a table with no running record under the app's id
succeeds and stores the running record with the passed flag. -/
theorem runtimeStart_lookup (apps : RuntimeApps) (app : Application)
    (ar : Bool) (pid : Int)
    (hnotrun : ∀ ex, apps app.id = some ex →
      ex.app.status ≠ AppStatusType.running) :
    (runtimeStart apps app ar true pid).1 = Except.ok ()
    ∧ (runtimeStart apps app ar true pid).2 app.id
        = some ⟨{ app with status := AppStatusType.running, pid := pid }, app.manifest.healthCheck.isSome, ar⟩ := by
  rw [runtimeStart_not_running apps app ar true pid hnotrun]
  simp [updateApps]

/-- A `Runtime.start` with a failing spawn reports the wrapped error. -/
theorem runtimeStart_spawn_failed (apps : RuntimeApps) (app : Application)
    (ar : Bool) (pid : Int)
    (hnotrun : ∀ ex, apps app.id = some ex →
      ex.app.status ≠ AppStatusType.running) :
    (runtimeStart apps app ar false pid).1
      = Except.error RuntimeError.startFailed := by
  rw [runtimeStart_not_running apps app ar false pid hnotrun]
  simp

/-- A `Runtime.Restart` of a present, non-running record reduces to a fresh
`start` of the stored application with the stored flag (the stop's
`ErrAppNotRunning` is swallowed). -/
theorem runtimeRestart_eq_start_of_not_running (apps : RuntimeApps)
    (appID : String) (info : AppInfo) (g s sp : Bool) (pid : Int)
    (hlook : apps appID = some info)
    (hnr : info.app.status ≠ AppStatusType.running) :
    runtimeRestart apps appID g s sp pid
      = runtimeStart apps info.app info.autoRestart sp pid := by
  simp [runtimeRestart, hlook, runtimeStop_not_running apps appID info g s hlook hnr]

/-- A `Runtime.Restart` of a running record (deliverable SIGTERM) reduces to
a `start` of the stopped record with the stored flag. -/
theorem runtimeRestart_eq_start_of_running (apps : RuntimeApps)
    (appID : String) (info : AppInfo) (g sp : Bool) (pid : Int)
    (hlook : apps appID = some info)
    (hr : info.app.status = AppStatusType.running) :
    runtimeRestart apps appID g true sp pid
      = runtimeStart (updateApps apps appID ⟨{ info.app with status := AppStatusType.stopped, pid := 0 }, false, info.autoRestart⟩) { info.app with status := AppStatusType.stopped, pid := 0 } info.autoRestart sp pid := by
  simp [runtimeRestart, hlook, runtimeStop_running apps appID info g hlook hr,
    updateApps]

/-- A `Runtime.Restart` propagates a SIGTERM delivery failure. -/
theorem runtimeRestart_signal_failed (apps : RuntimeApps) (appID : String)
    (info : AppInfo) (g sp : Bool) (pid : Int)
    (hlook : apps appID = some info)
    (hr : info.app.status = AppStatusType.running) :
    (runtimeRestart apps appID g false sp pid).1
      = Except.error RuntimeError.signalFailed := by
  simp [runtimeRestart, hlook,
    runtimeStop_signal_failed apps appID info g hlook hr]

/-- C6: whenever `Restart` succeeds on a registered app (stored under its
own id), the operation reads the stored `auto_restart` flag before the
stop, ignores the stop's `ErrAppNotRunning`, and restores a running record
carrying the identical flag — `auto_restart` is unchanged across the
operation. -/
theorem C6_restart_preserves_auto_restart (apps : RuntimeApps) (appID : String)
    (info : AppInfo) (g s sp : Bool) (pid : Int)
    (hlook : apps appID = some info) (hid : info.app.id = appID)
    (hok : (runtimeRestart apps appID g s sp pid).1 = Except.ok ()) :
    ∃ info2, (runtimeRestart apps appID g s sp pid).2 appID = some info2
      ∧ info2.autoRestart = info.autoRestart
      ∧ info2.app.status = AppStatusType.running := by
  by_cases hr : info.app.status = AppStatusType.running
  · cases s
    · rw [runtimeRestart_signal_failed apps appID info g sp pid hlook hr] at hok
      cases hok
    · rw [runtimeRestart_eq_start_of_running apps appID info g sp pid hlook hr]
        at hok ⊢
      have hid2 : ({ info.app with status := AppStatusType.stopped, pid := 0 } : Application).id = appID := hid
      have hnotrun : ∀ ex,
          (updateApps apps appID ⟨{ info.app with status := AppStatusType.stopped, pid := 0 }, false, info.autoRestart⟩) ({ info.app with status := AppStatusType.stopped, pid := 0 } : Application).id = some ex →
          ex.app.status ≠ AppStatusType.running := by
        intro ex hex
        rw [hid2] at hex
        simp only [updateApps, if_pos rfl] at hex
        cases hex
        simp
      cases sp
      · rw [runtimeStart_spawn_failed _ _ _ pid hnotrun] at hok
        cases hok
      · obtain ⟨hok2, hlk⟩ := runtimeStart_lookup _ _ info.autoRestart pid hnotrun
        rw [hid2] at hlk
        exact ⟨_, hlk, rfl, rfl⟩
  · rw [runtimeRestart_eq_start_of_not_running apps appID info g s sp pid
      hlook hr] at hok ⊢
    have hnotrun : ∀ ex, apps info.app.id = some ex →
        ex.app.status ≠ AppStatusType.running := by
      intro ex hex
      rw [hid, hlook] at hex
      cases hex
      exact hr
    cases sp
    · rw [runtimeStart_spawn_failed _ _ _ pid hnotrun] at hok
      cases hok
    · obtain ⟨hok2, hlk⟩ := runtimeStart_lookup _ _ info.autoRestart pid hnotrun
      rw [hid] at hlk
      exact ⟨_, hlk, rfl, rfl⟩

/-- Witness for C6: restarting the running sample app (stored flag `true`)
succeeds and the restored record carries the same flag. -/
theorem C6_restart_preserves_auto_restart_witness :
    ∃ info2, (runtimeRestart appsSample "hello-world-1.0.0" true true true 43).2
        "hello-world-1.0.0" = some info2
      ∧ info2.autoRestart = appInfoSample.autoRestart
      ∧ info2.app.status = AppStatusType.running :=
  C6_restart_preserves_auto_restart appsSample "hello-world-1.0.0"
    appInfoSample true true true 43 rfl rfl rfl

/-! ## Deploy handler (`pkg/daemon/daemon.go`) -/

/-- The daemon-side `DeployRequest` struct (daemon.go lines 201–205).
It has no signature field: the `signature` the controller includes in its
JSON header is silently dropped by `json.Unmarshal` into this struct. -/
structure DeployRequest where
  fileName  : String
  fileSize  : Int
  autoStart : Bool
deriving Repr, DecidableEq

/-- Embedding of `DeployResponse` (daemon.go lines 208–212). -/
structure DeployResponse where
  success : Bool
  appID   : String
  error   : String
deriving Repr, DecidableEq

/-- Embedding of `Daemon.DeployPackage` (daemon.go lines 135–169): `GetManifest`,
derive `app_id = name + "-" + version`, `Unpack` into `apps/<app_id>`
(only its error is consulted; its returned manifest is discarded), then
construct the `Application` record with `status = stopped`. -/
def deployPackage (appsDir : List String) (entries : List TarEntry) :
    Except PkgError Application :=
  match getManifest entries with
  | Except.error e => Except.error e
  | Except.ok manifest =>
      let appID := manifest.name ++ "-" ++ manifest.version
      match unpackManifest entries with
      | Except.error e => Except.error e
      | Except.ok _ =>
          Except.ok ⟨appID, manifest.name, manifest.version, manifest,
            AppStatusType.stopped, 0, appsDir ++ [appID]⟩

/-- Embedding of `Daemon.handleDeployRequest` (daemon.go lines 215–275), from the point
where the JSON header has been parsed into `req`: receive exactly
`file_size` body bytes into the packages directory, decode the stored
archive (`decodeArchive` stands for gzip+tar decoding of the bytes on
disk), `DeployPackage`, and reply.  An `auto_start` failure is only
logged, so the reply does not depend on it.  No signature is read, and no
verification of any kind is performed before the app record is created. -/
def handleDeployRequest (decodeArchive : List Nat → Option (List TarEntry))
    (req : DeployRequest) (bodyChunks : List (List Nat))
    (appsDir : List String) : DeployResponse × Option Application :=
  match (receiveFile bodyChunks req.fileSize).1 with
  | Except.error e => (⟨false, "", e⟩, none)
  | Except.ok _ =>
      match decodeArchive (receiveFile bodyChunks req.fileSize).2 with
      | none => (⟨false, "", "invalid gzip format"⟩, none)
      | some entries =>
          match deployPackage appsDir entries with
          | Except.error _ => (⟨false, "", "failed to deploy package"⟩, none)
          | Except.ok app => (⟨true, app.id, ""⟩, some app)

/-- C1 as the code behaves: even when no trusted key verifies the
signature of the received archive, `Manager.Verify` ignores the signature
bytes entirely (it succeeds whenever the package file exists), and the
deploy handler — whose request struct has no signature field — still
creates the application record and replies `success = true` whenever the
transfer and unpack steps succeed.  The claimed
`success=false`/`InvalidSignature` reply is unreachable. -/
theorem C1_deploy_ignores_signature
    (ed25519Verify : List Nat → List Nat → List Nat → Bool)
    (trustedKeys : List (List Nat)) (archiveDigest sigBytes : List Nat)
    (decodeArchive : List Nat → Option (List TarEntry))
    (req : DeployRequest) (bodyChunks : List (List Nat))
    (appsDir : List String)
    (hnoverify : ∀ k ∈ trustedKeys,
      ed25519Verify k archiveDigest sigBytes = false) :
    (∀ pkgExists s1 s2, managerVerify pkgExists s1 = managerVerify pkgExists s2)
    ∧ managerVerify true sigBytes = Except.ok ()
    ∧ (∀ entries app,
        (receiveFile bodyChunks req.fileSize).1 = Except.ok () →
        decodeArchive (receiveFile bodyChunks req.fileSize).2 = some entries →
        deployPackage appsDir entries = Except.ok app →
        (handleDeployRequest decodeArchive req bodyChunks appsDir).1.success
            = true
          ∧ (handleDeployRequest decodeArchive req bodyChunks appsDir).2
            = some app) := by
  refine ⟨fun _ _ _ => rfl, rfl, ?_⟩
  intro entries app hrecv hdec hdeploy
  constructor <;> simp [handleDeployRequest, hrecv, hdec, hdeploy]

/-- A well-formed one-entry archive used by the deploy witness. -/
def entriesSample : List TarEntry :=
  [⟨"manifest.yaml", TarType.reg,
    some ⟨"hello-world", "1.0.0", "bin/hello-world", none⟩⟩]

/-- The application record `DeployPackage` builds from `entriesSample`. -/
def appSample : Application :=
  ⟨"hello-world-1.0.0", "hello-world", "1.0.0",
   ⟨"hello-world", "1.0.0", "bin/hello-world", none⟩,
   AppStatusType.stopped, 0, ["apps", "hello-world-1.0.0"]⟩

/-- Witness for C1: a one-byte package with an all-zero signature that no
trusted key verifies still deploys successfully and creates the record. -/
theorem C1_deploy_ignores_signature_witness :
    (handleDeployRequest (fun _ => some entriesSample)
        ⟨"hello-world-1.0.0.tar.gz", 1, false⟩ [[7]] ["apps"]).1.success = true
    ∧ (handleDeployRequest (fun _ => some entriesSample)
        ⟨"hello-world-1.0.0.tar.gz", 1, false⟩ [[7]] ["apps"]).2
      = some appSample :=
  (C1_deploy_ignores_signature (fun _ _ _ => false) [[1]] [0]
    (List.replicate 64 0) (fun _ => some entriesSample)
    ⟨"hello-world-1.0.0.tar.gz", 1, false⟩ [[7]] ["apps"]
    (fun _ _ => rfl)).2.2 entriesSample appSample rfl rfl rfl

/-! ## Discovery (`pkg/discovery/discovery.go`) -/

/-- Embedding of `discovery.NodeAnnouncement`. -/
structure NodeAnnouncement where
  peerID    : String
  name      : String
  addrs     : List String
  version   : String
  timestamp : Int
deriving Repr, DecidableEq

/-- Embedding of `discovery.DiscoveredNode` (the `PeerID` field is the map key). -/
structure DiscoveredNode where
  name     : String
  addrs    : List String
  version  : String
  lastSeen : Nat
deriving Repr, DecidableEq

/-- The node map `Service.nodes`, a Go map modelled as a function; time is
in seconds. -/
def DiscMap : Type := String → Option DiscoveredNode

/-- Embedding of `NodeTimeout = 30 * time.Second` (discovery.go line 26). -/
def nodeTimeoutSeconds : Nat := 30

/-- Embedding of `AnnounceInterval = 10 * time.Second` (discovery.go line 23). -/
def announceIntervalSeconds : Nat := 10

/-- Embedding of `Service.handleAnnouncement` (discovery.go lines 250–277): overwrite
the entry for the peer with a fresh record (`LastSeen = time.Now()`) and
report whether the peer was new — the `onNodeDiscovered` callback fires
exactly in that case. -/
def handleAnnouncement (nodes : DiscMap) (peerID : String)
    (ann : NodeAnnouncement) (now : Nat) : DiscMap × Bool :=
  let isNew := (nodes peerID).isNone
  let node : DiscoveredNode := ⟨ann.name, ann.addrs, ann.version, now⟩
  (fun q => if q = peerID then some node else nodes q, isNew)

/-- Embedding of `Service.cleanupStaleNodes` (discovery.go lines 317–331): delete every
entry with `now - lastSeen > NodeTimeout`; the second component tells for
which peers the `onNodeLost` callback fires. -/
def cleanupStaleNodes (nodes : DiscMap) (now : Nat) :
    DiscMap × (String → Bool) :=
  (fun q => match nodes q with
    | some n => if now - n.lastSeen > nodeTimeoutSeconds then none else some n
    | none => none,
   fun q => match nodes q with
    | some n => decide (now - n.lastSeen > nodeTimeoutSeconds)
    | none => false)

/-- C9: after an announcement from peer `p` processed at time `now`, the
map holds an entry for `p` with `last_seen = now ≥ t` for any receive time
`t ≤ now`; the discovered callback fires iff `p` was not in the map;
the sweeper at time `now2` removes an entry, firing the lost callback,
iff `now2 - last_seen > NodeTimeout = 30s`, and in particular removes the
fresh entry iff `now2 - now > 30`. -/
theorem C9_discovery_map_invariants (nodes : DiscMap) (p : String)
    (ann : NodeAnnouncement) (now t now2 : Nat) (ht : t ≤ now) :
    (∃ n, (handleAnnouncement nodes p ann now).1 p = some n
       ∧ n.lastSeen = now ∧ t ≤ n.lastSeen)
    ∧ ((handleAnnouncement nodes p ann now).2 = true ↔ nodes p = none)
    ∧ (∀ q n, nodes q = some n →
        (((cleanupStaleNodes nodes now2).1 q = none)
            ↔ now2 - n.lastSeen > nodeTimeoutSeconds)
          ∧ (((cleanupStaleNodes nodes now2).2 q = true)
            ↔ now2 - n.lastSeen > nodeTimeoutSeconds))
    ∧ (∀ q, nodes q = none →
        (cleanupStaleNodes nodes now2).1 q = none
          ∧ (cleanupStaleNodes nodes now2).2 q = false)
    ∧ (((cleanupStaleNodes (handleAnnouncement nodes p ann now).1 now2).1 p
          = none)
        ↔ now2 - now > nodeTimeoutSeconds) := by
  have hlook : (handleAnnouncement nodes p ann now).1 p
      = some ⟨ann.name, ann.addrs, ann.version, now⟩ := by
    simp [handleAnnouncement]
  refine ⟨⟨⟨ann.name, ann.addrs, ann.version, now⟩, hlook, rfl, ht⟩, ?_, ?_, ?_, ?_⟩
  · simp [handleAnnouncement, Option.isNone_iff_eq_none]
  · intro q n hq
    by_cases hc : now2 - n.lastSeen > nodeTimeoutSeconds
    · constructor <;> simp [cleanupStaleNodes, hq, hc]
    · constructor <;> simp [cleanupStaleNodes, hq, hc]
  · intro q hq
    constructor <;> simp [cleanupStaleNodes, hq]
  · by_cases hc : now2 - now > nodeTimeoutSeconds
    · simp [cleanupStaleNodes, hlook, hc]
    · simp [cleanupStaleNodes, hlook, hc]

/-- The empty node map, used by the discovery witness. -/
def nodesEmpty : DiscMap := fun _ => none

/-- A concrete announcement used by the discovery witness. -/
def annSample : NodeAnnouncement :=
  ⟨"peer1", "node-a", ["addr1"], "1.0", 7⟩

/-- Witness for C9: first sighting of `peer1` at `now = 7` fires the
discovered callback, and the sweep at `now2 = 50` evicts it
(50 − 7 > 30). -/
theorem C9_discovery_map_invariants_witness :
    ((handleAnnouncement nodesEmpty "peer1" annSample 7).2 = true
      ↔ nodesEmpty "peer1" = none)
    ∧ (((cleanupStaleNodes (handleAnnouncement nodesEmpty "peer1" annSample
          7).1 50).1 "peer1" = none)
        ↔ 50 - 7 > nodeTimeoutSeconds) :=
  ⟨(C9_discovery_map_invariants nodesEmpty "peer1" annSample 7 5 50
      (by decide)).2.1,
   (C9_discovery_map_invariants nodesEmpty "peer1" annSample 7 5 50
      (by decide)).2.2.2.2⟩
